import Mathlib

/-!
Verification of the `SRGI_converter.py` tide pipeline (class `HydroTideArchitect`).

The file gives a shallow embedding of the computational core of the script:
timezone resolution from header coordinates, the Wyrtki Formzahl classifier
built on the external harmonic solver, the spring-tide fieldwork-window
recommender (pandas `resample` / `rolling` / `idxmax` semantics), the
data-loading pipeline with its null-data guards, and the regular-expression
scan that extracts the longitude from the header.  Timestamps are modelled as
integer hours, elevations and coordinates as rationals, Python floats' NaN as
`Option.none`, and a raised Python exception as `Except.error`.
-/

namespace SRGI

attribute [local semireducible] Rat.add Rat.sub Rat.mul Rat.inv

/-- One row of the parsed dataframe (`datetime_utc`, `datetime_local`,
`elevation_m`): UTC timestamp in hours, local timestamp in hours, elevation in
metres. -/
structure TideObs where
  utc : ℤ
  tLocal : ℤ
  elev : ℚ

/-- Calendar day of the local timestamp: `resample('D')` floors the local
datetime to its day, which for a timestamp counted in hours is floor division
by 24. -/
def obsDay (o : TideObs) : ℤ := Int.fdiv o.tLocal 24

/-- Minimum of two rationals. -/
def qmin (a b : ℚ) : ℚ := if a ≤ b then a else b

/-- Maximum of two rationals. -/
def qmax (a b : ℚ) : ℚ := if a ≤ b then b else a

/-- Minimum of two integers. -/
def zmin (a b : ℤ) : ℤ := if a ≤ b then a else b

/-- Maximum of two integers. -/
def zmax (a b : ℤ) : ℤ := if a ≤ b then b else a

/-- Minimum of a list of rationals (`none` on the empty list, modelling a NaN
aggregate of an empty group). -/
def listMinQ : List ℚ → Option ℚ
  | [] => none
  | x :: xs => some (xs.foldl qmin x)

/-- Maximum of a list of rationals (`none` on the empty list). -/
def listMaxQ : List ℚ → Option ℚ
  | [] => none
  | x :: xs => some (xs.foldl qmax x)

/-- Minimum of a list of integers (`none` on the empty list). -/
def listMinZ : List ℤ → Option ℤ
  | [] => none
  | x :: xs => some (xs.foldl zmin x)

/-- Maximum of a list of integers (`none` on the empty list). -/
def listMaxZ : List ℤ → Option ℤ
  | [] => none
  | x :: xs => some (xs.foldl zmax x)

/-- Elevations observed on local calendar day `d` (the day's resample
bucket). -/
def dayElevs (obs : List TideObs) (d : ℤ) : List ℚ :=
  (obs.filter (fun o => obsDay o = d)).map TideObs.elev

/-- Per-day tidal range `max - min` of elevation, as built by
`daily['range'] = daily['max'] - daily['min']` in `recommend_fieldwork_window`;
`none` models the NaN aggregate of a day with no observations. -/
def dailyRange (obs : List TideObs) (d : ℤ) : Option ℚ :=
  match listMaxQ (dayElevs obs d), listMinQ (dayElevs obs d) with
  | some hi, some lo => some (hi - lo)
  | _, _ => none

/-- Index of the resampled daily series: every calendar day from the first to
the last observed day (pandas `resample('D')` emits the full contiguous daily
index, with NaN aggregates for days without data). -/
def daysIndex (obs : List TideObs) : List ℤ :=
  match listMinZ (obs.map obsDay), listMaxZ (obs.map obsDay) with
  | some d0, some d1 => (List.range ((d1 - d0).toNat + 1)).map (fun i : ℕ => d0 + (i : ℤ))
  | _, _ => []

/-- Trailing 3-day rolling sum of the daily range,
`daily['range'].rolling(window=3).sum()`: defined at day `d` exactly when all
of days `d-2`, `d-1`, `d` have a defined range (pandas uses
`min_periods = window`, so any NaN inside the window, including the two
leading positions, yields NaN). -/
def roll3 (obs : List TideObs) (d : ℤ) : Option ℚ :=
  match dailyRange obs (d - 2), dailyRange obs (d - 1), dailyRange obs d with
  | some a, some b, some c => some (a + b + c)
  | _, _, _ => none

/-- The `3d_range_sum` column as an indexed series: the daily index paired
with the rolling 3-day sum at each day. -/
def rollSeries (obs : List TideObs) : List (ℤ × Option ℚ) :=
  (daysIndex obs).map (fun d => (d, roll3 obs d))

/-- First maximum of a series of optional values: returns the pair
`(index, value)` of the greatest defined value, keeping the earliest index on
ties (a later value replaces the current best only when strictly greater);
`none` when no value is defined. -/
def argmaxFirst : List (ℤ × Option ℚ) → Option (ℤ × ℚ)
  | [] => none
  | (_, none) :: rest => argmaxFirst rest
  | (d, some v) :: rest =>
    match argmaxFirst rest with
    | none => some (d, v)
    | some (d2, v2) => if v2 > v then some (d2, v2) else some (d, v)

/-- pandas `Series.idxmax`: raises `ValueError` on an empty series, skips NaN
values, returns NaN (here `none`) when every value is NaN, and otherwise
returns the first index attaining the maximum. -/
def series_idxmax (pairs : List (ℤ × Option ℚ)) : Except String (Option ℤ) :=
  if pairs = [] then Except.error "attempt to get argmax of an empty sequence"
  else Except.ok ((argmaxFirst pairs).map Prod.fst)

/-- `recommend_fieldwork_window` (without its `df is None` guard, handled in
`recommend_step`): build the daily 3-day rolling-range series, take
`idxmax`, return silently when it is NaN, else report the inclusive window
`[best_end - 2 days, best_end]`. -/
def recommend_fieldwork_window (obs : List TideObs) : Except String (Option (ℤ × ℤ)) :=
  match series_idxmax (rollSeries obs) with
  | Except.error msg => Except.error msg
  | Except.ok none => Except.ok none
  | Except.ok (some bestEnd) => Except.ok (some (bestEnd - 2, bestEnd))

/-- Wyrtki (1961) classification of the Formzahl value, as in
`analyze_tide_type`. -/
def classify_wyrtki (F : ℚ) : String :=
  if 0 < F ∧ F ≤ 1/4 then "Semidiurnal (Ganda)"
  else if 1/4 < F ∧ F ≤ 3/2 then "Mixed, prevailing semidiurnal (Campuran condong Ganda)"
  else if 3/2 < F ∧ F ≤ 3 then "Mixed, prevailing diurnal (Campuran condong Tunggal)"
  else if 3 < F then "Diurnal (Tunggal)"
  else "Undefined"

/-- The `found_amps` dictionary restricted to the four target constituents,
each initialised to 0.0. -/
structure Amps where
  M2 : ℚ
  S2 : ℚ
  K1 : ℚ
  O1 : ℚ

/-- One step of the `for name, amp in zip(names, amplitudes)` loop: a solver
row updates the matching target constituent and is ignored otherwise. -/
def updateAmp (a : Amps) (p : String × ℚ) : Amps :=
  if p.1 = "M2" then { a with M2 := p.2 }
  else if p.1 = "S2" then { a with S2 := p.2 }
  else if p.1 = "K1" then { a with K1 := p.2 }
  else if p.1 = "O1" then { a with O1 := p.2 }
  else a

/-- Amplitudes of M2, S2, K1, O1 extracted from the solver output
(`coef` rows as name-amplitude pairs); constituents absent from the output
keep their initial 0.0. -/
def found_amps (coef : List (String × ℚ)) : Amps :=
  coef.foldl updateAmp ⟨0, 0, 0, 0⟩

/-- Formzahl computation of `analyze_tide_type`:
`(K1 + O1) / (M2 + S2)`, with the sentinel 999.0 when the denominator is 0. -/
def formzahl_of (coef : List (String × ℚ)) : ℚ :=
  let a := found_amps coef
  let numerator := a.K1 + a.O1
  let denominator := a.M2 + a.S2
  if denominator = 0 then 999 else numerator / denominator

/-- The classification fields of the `HydroTideArchitect` instance:
`self.tide_type`, `self.formzahl`, `self.constituents`. -/
structure AnalyzeState where
  tide_type : String
  formzahl : ℚ
  constituents : List (String × ℚ)

/-- Initial state from `__init__`: `tide_type = "Unknown"`, `formzahl = 0.0`,
`constituents = {}`. -/
def initAnalyze : AnalyzeState := ⟨"Unknown", 0, []⟩

/-- Dictionary assignment `dict[k] = v` on an association list: overwrite the
first binding of `k`, or append a new binding. -/
def assocSet : List (String × ℚ) → String → ℚ → List (String × ℚ)
  | [], k, v => [(k, v)]
  | (k2, v2) :: rest, k, v =>
    if k2 = k then (k, v) :: rest else (k2, v2) :: assocSet rest k v

/-- The `target_constituents` list of `analyze_tide_type`. -/
def target_constituents : List String := ["M2", "S2", "K1", "O1"]

/-- The `self.constituents[name] = amp` updates performed while scanning the
solver output. -/
def constituents_update (c : List (String × ℚ)) (coef : List (String × ℚ)) :
    List (String × ℚ) :=
  coef.foldl (fun acc p =>
    if p.1 ∈ target_constituents then assocSet acc p.1 p.2 else acc) c

/-- `analyze_tide_type` after the `df is None` guard, as a function of the
solver outcome: a solver exception is caught (`try/except`) and the method
returns with the state untouched; on success the Formzahl is computed, the
Wyrtki label assigned and the constituent dictionary updated. -/
def analyze_tide_type (coefRes : Except String (List (String × ℚ)))
    (st : AnalyzeState) : AnalyzeState :=
  match coefRes with
  | Except.error _ => st
  | Except.ok coef =>
    let F := formzahl_of coef
    { tide_type := classify_wyrtki F
      formzahl := F
      constituents := constituents_update st.constituents coef }

/-- The `self.metadata` dictionary: optional latitude and longitude, timezone
name and integer hour offset. -/
structure SiteMeta where
  lat : Option ℚ
  lon : Option ℚ
  tz_name : String
  tz_offset : ℤ

/-- `_detect_timezone_by_coords` as a function of the regex-extracted
latitude and longitude: fixed Indonesian bands on the longitude when present;
when the longitude is absent, fall back to WIB (UTC+7) and overwrite the
latitude field with the default -8.0. -/
def detect_timezone_by_coords (plat plon : Option ℚ) : SiteMeta :=
  match plon with
  | some lon =>
    if lon < 1148/10 then ⟨plat, some lon, "WIB", 7⟩
    else if 1148/10 ≤ lon ∧ lon < 129 then ⟨plat, some lon, "WITA", 8⟩
    else ⟨plat, some lon, "WIT", 9⟩
  | none => ⟨some (-8), none, "WIB", 7⟩

/-- The timezone part of the resolved metadata. -/
def tz_of (m : SiteMeta) : String × ℤ := (m.tz_name, m.tz_offset)

/-- The latitude handed to the solver in `analyze_tide_type`:
`self.metadata['lat'] if self.metadata['lat'] else -8.0`.  Python truthiness
makes both `None` and `0.0` fall back to -8.0. -/
def classifier_lat (metaLat : Option ℚ) : ℚ :=
  match metaLat with
  | none => -8
  | some l => if l = 0 then -8 else l

/-- One whitespace-separated data row as read by `pd.read_csv`
(`Lat Lon Date Time elevation_m`); the timestamp is the already-combined UTC
instant in hours and `none` models a NaN elevation. -/
structure RawRow where
  lat : ℚ
  lon : ℚ
  utc : ℤ
  elev : Option ℚ

/-- The dataframe construction of `process_data`: local time is UTC plus the
resolved offset in hours, and `dropna(subset=['elevation_m'])` removes rows
whose elevation is NaN. -/
def process_rows (rows : List RawRow) (offset : ℤ) : List TideObs :=
  rows.filterMap (fun r =>
    r.elev.map (fun e => ⟨r.utc, r.utc + offset, e⟩))

/-- The fields of the `HydroTideArchitect` instance the pipeline stages read
and write: parsed dataframe (`None` before/after a failed parse),
classification state, site metadata. -/
structure TidePipeline where
  df : Option (List TideObs)
  analysis : AnalyzeState
  meta : SiteMeta

/-- Instance state after `__init__`: no dataframe, unknown classification,
metadata defaulted to UTC. -/
def initPipeline : TidePipeline :=
  ⟨none, initAnalyze, ⟨none, none, "UTC", 0⟩⟩

/-- `process_data` as a function of the parse outcome: on success the parsed
rows are stored in `self.df`; a parsing exception is caught, `None` is
returned, and `self.df` keeps its previous value (still `None` from
construction). -/
def process_data (parse : Except String (List TideObs)) (p : TidePipeline) :
    TidePipeline :=
  match parse with
  | Except.error _ => p
  | Except.ok obs => { p with df := some obs }

/-- `analyze_tide_type` with its `if self.df is None: return` guard, the
solver being an external routine fed the classifier latitude. -/
def analyze_step
    (solve : ℚ → List TideObs → Except String (List (String × ℚ)))
    (p : TidePipeline) : TidePipeline :=
  match p.df with
  | none => p
  | some obs =>
    { p with analysis := analyze_tide_type (solve (classifier_lat p.meta.lat) obs) p.analysis }

/-- `recommend_fieldwork_window` with its `if self.df is None: return`
guard. -/
def recommend_step (p : TidePipeline) : Except String (Option (ℤ × ℤ)) :=
  match p.df with
  | none => Except.ok none
  | some obs => recommend_fieldwork_window obs

/-- Content of the Excel report of `export_excel_pro`: the data sheet rows,
the optional harmonic sheet (constituents, Formzahl, label — present only
when `self.constituents` is nonempty), and the title fields of the chart. -/
structure ExcelOut where
  rows : List (ℤ × ℚ)
  harmonic_sheet : Option (List (String × ℚ) × ℚ × String)
  tz : String
  tide_type : String

/-- `export_excel_pro`: a no-op when `self.df is None`, otherwise the report
assembled from the dataframe and the classification state. -/
def export_excel_pro (p : TidePipeline) : Option ExcelOut :=
  match p.df with
  | none => none
  | some obs =>
    some { rows := obs.map (fun o => (o.tLocal, o.elev))
           harmonic_sheet :=
             if p.analysis.constituents = [] then none
             else some (p.analysis.constituents, p.analysis.formzahl, p.analysis.tide_type)
           tz := p.meta.tz_name
           tide_type := p.analysis.tide_type }

/-- Content of the interactive chart of `export_html_pro`: series of local
times and elevations, the mean-sea-level reference, and the title fields. -/
structure HtmlOut where
  xs : List ℤ
  ys : List ℚ
  msl : ℚ
  tz : String
  tide_type : String

/-- `export_html_pro`: a no-op when `self.df is None`, otherwise the chart
data with the MSL line at the mean elevation. -/
def export_html_pro (p : TidePipeline) : Option HtmlOut :=
  match p.df with
  | none => none
  | some obs =>
    some { xs := obs.map TideObs.tLocal
           ys := obs.map TideObs.elev
           msl := (obs.map TideObs.elev).sum / (obs.length : ℚ)
           tz := p.meta.tz_name
           tide_type := p.analysis.tide_type }

/-- Python regex class `\s` restricted to ASCII, as used in
`Lon:\s*([\d\.]+)`. -/
def isSpaceChar (c : Char) : Bool :=
  c = ' ' || c = '\t' || c = '\n' || c = '\r' || c = '\x0b' || c = '\x0c'

/-- Python regex class `[\d\.]`: a decimal digit or a dot — the minus sign is
not in the class. -/
def isNumChar (c : Char) : Bool := c.isDigit || c = '.'

/-- Match a literal prefix, returning the remainder on success. -/
def dropLiteral : List Char → List Char → Option (List Char)
  | [], cs => some cs
  | _ :: _, [] => none
  | l :: ls, c :: cs => if c = l then dropLiteral ls cs else none

/-- `re.search(r'Lon:\s*([\d\.]+)', line)`: at each position try to match the
literal `Lon:`, then greedily skip whitespace, then capture a nonempty run of
`[\d\.]` characters; on failure move one position right.  (No backtracking
into `\s*` is needed because the whitespace class and `[\d\.]` are
disjoint.) -/
def lonSearch : List Char → Option (List Char)
  | [] => none
  | c :: cs =>
    match dropLiteral [ 'L', 'o', 'n', ':'] (c :: cs) with
    | none => lonSearch cs
    | some rest =>
      let ds := (rest.dropWhile isSpaceChar).takeWhile isNumChar
      if ds = [] then lonSearch cs else some ds

/-- The longitude-extraction loop of `_detect_timezone_by_coords`: scan the
first 20 header lines, each successful match overwriting
`self.metadata['lon']`. -/
def detectLonFromLines (lines : List (List Char)) : Option (List Char) :=
  (lines.take 20).foldl (fun acc line =>
    match lonSearch line with
    | some ds => some ds
    | none => acc) none

/-- Specification predicate for the recommended window (from the spec's
words): the window is the inclusive 3-day span ending at a day of the daily
index whose trailing 3-day rolling sum of daily range is defined and maximal,
earlier days with a defined sum being strictly smaller (stable argmax), and
the sum is the sum of the three daily `max - min` ranges. -/
def WindowSpec (obs : List TideObs) (s e : ℤ) : Prop :=
  s = e - 2 ∧
  e ∈ daysIndex obs ∧
  ∃ v : ℚ, roll3 obs e = some v ∧
    (∀ d ∈ daysIndex obs, ∀ w : ℚ, roll3 obs d = some w → w ≤ v) ∧
    (∀ d ∈ daysIndex obs, d < e → ∀ w : ℚ, roll3 obs d = some w → w < v) ∧
    ∀ a b c : ℚ, dailyRange obs (e - 2) = some a → dailyRange obs (e - 1) = some b →
      dailyRange obs e = some c → v = a + b + c

/-- Concrete 3-day series used to witness the window theorem: daily ranges
1, 2, 3, so the only defined rolling sum is 6 at day 2. -/
def obsWitness : List TideObs :=
  [⟨0, 0, 0⟩, ⟨1, 1, 1⟩, ⟨24, 24, 0⟩, ⟨25, 25, 2⟩, ⟨48, 48, 0⟩, ⟨49, 49, 3⟩]

/-- A solver that always raises, used to witness the error-path theorems. -/
def solverFailWitness : ℚ → List TideObs → Except String (List (String × ℚ)) :=
  fun _ _ => Except.error "matrix is singular"

/-- A pipeline state with a loaded dataframe and the initial classification,
used to witness the error-path theorems. -/
def pipelineWitness : TidePipeline :=
  ⟨some obsWitness, initAnalyze, ⟨none, none, "UTC", 0⟩⟩

/-- Two well-formed synthetic rows, used to witness the parsing round-trip
theorem. -/
def rowsWitness : List RawRow :=
  [⟨-8, 112, 0, some 1⟩, ⟨-8, 112, 1, some 2⟩]

/-- Claim C1: the tidal-type label follows the exact Wyrtki threshold
intervals — `0 < F ≤ 0.25` semidiurnal, `0.25 < F ≤ 1.5` mixed prevailing
semidiurnal, `1.5 < F ≤ 3.0` mixed prevailing diurnal, `F > 3.0` diurnal,
`F ≤ 0` undefined; in particular `F = 0.25` is semidiurnal and `F = 3.0` is
mixed prevailing diurnal. -/
theorem wyrtki_thresholds (F : ℚ) :
    (0 < F → F ≤ 1/4 → classify_wyrtki F = "Semidiurnal (Ganda)") ∧
    (1/4 < F → F ≤ 3/2 →
      classify_wyrtki F = "Mixed, prevailing semidiurnal (Campuran condong Ganda)") ∧
    (3/2 < F → F ≤ 3 →
      classify_wyrtki F = "Mixed, prevailing diurnal (Campuran condong Tunggal)") ∧
    (3 < F → classify_wyrtki F = "Diurnal (Tunggal)") ∧
    (F ≤ 0 → classify_wyrtki F = "Undefined") ∧
    classify_wyrtki (1/4) = "Semidiurnal (Ganda)" ∧
    classify_wyrtki 3 = "Mixed, prevailing diurnal (Campuran condong Tunggal)" := by
  refine ⟨fun h1 h2 => ?_, fun h1 h2 => ?_, fun h1 h2 => ?_, fun h1 => ?_,
    fun h1 => ?_, by decide, by decide⟩
  · unfold classify_wyrtki
    rw [if_pos ⟨h1, h2⟩]
  · have hn1 : ¬ (0 < F ∧ F ≤ 1/4) := by rintro ⟨-, hx⟩; linarith
    unfold classify_wyrtki
    rw [if_neg hn1, if_pos ⟨h1, h2⟩]
  · have hn1 : ¬ (0 < F ∧ F ≤ 1/4) := by rintro ⟨-, hx⟩; linarith
    have hn2 : ¬ (1/4 < F ∧ F ≤ 3/2) := by rintro ⟨-, hx⟩; linarith
    unfold classify_wyrtki
    rw [if_neg hn1, if_neg hn2, if_pos ⟨h1, h2⟩]
  · have hn1 : ¬ (0 < F ∧ F ≤ 1/4) := by rintro ⟨-, hx⟩; linarith
    have hn2 : ¬ (1/4 < F ∧ F ≤ 3/2) := by rintro ⟨-, hx⟩; linarith
    have hn3 : ¬ (3/2 < F ∧ F ≤ 3) := by rintro ⟨-, hx⟩; linarith
    unfold classify_wyrtki
    rw [if_neg hn1, if_neg hn2, if_neg hn3, if_pos h1]
  · have hn1 : ¬ (0 < F ∧ F ≤ 1/4) := by rintro ⟨hx, -⟩; linarith
    have hn2 : ¬ (1/4 < F ∧ F ≤ 3/2) := by rintro ⟨hx, -⟩; linarith
    have hn3 : ¬ (3/2 < F ∧ F ≤ 3) := by rintro ⟨hx, -⟩; linarith
    have hn4 : ¬ (3 < F) := by linarith
    unfold classify_wyrtki
    rw [if_neg hn1, if_neg hn2, if_neg hn3, if_neg hn4]

/-- Witness for claim C1: the threshold theorem applied at concrete Formzahl
values inside each band. -/
theorem wyrtki_thresholds_witness :
    classify_wyrtki (1/8) = "Semidiurnal (Ganda)" ∧
    classify_wyrtki 1 = "Mixed, prevailing semidiurnal (Campuran condong Ganda)" ∧
    classify_wyrtki 2 = "Mixed, prevailing diurnal (Campuran condong Tunggal)" ∧
    classify_wyrtki 4 = "Diurnal (Tunggal)" ∧
    classify_wyrtki 0 = "Undefined" :=
  ⟨(wyrtki_thresholds (1/8)).1 (by norm_num) (by norm_num),
   (wyrtki_thresholds 1).2.1 (by norm_num) (by norm_num),
   (wyrtki_thresholds 2).2.2.1 (by norm_num) (by norm_num),
   (wyrtki_thresholds 4).2.2.2.1 (by norm_num),
   (wyrtki_thresholds 0).2.2.2.2.1 (by norm_num)⟩

/-- Claim C3: the timezone resolver maps longitudes below 114.8 to WIB
(UTC+7), longitudes in [114.8, 129.0) to WITA (UTC+8), longitudes at or above
129.0 to WIT (UTC+9), and an absent longitude to the WIB fallback, with the
stated boundary values. -/
theorem timezone_resolver_bands (plat : Option ℚ) (L : ℚ) :
    (L < 1148/10 → tz_of (detect_timezone_by_coords plat (some L)) = ("WIB", 7)) ∧
    (1148/10 ≤ L → L < 129 →
      tz_of (detect_timezone_by_coords plat (some L)) = ("WITA", 8)) ∧
    (129 ≤ L → tz_of (detect_timezone_by_coords plat (some L)) = ("WIT", 9)) ∧
    tz_of (detect_timezone_by_coords plat none) = ("WIB", 7) ∧
    tz_of (detect_timezone_by_coords none (some (11479/100))) = ("WIB", 7) ∧
    tz_of (detect_timezone_by_coords none (some (1148/10))) = ("WITA", 8) ∧
    tz_of (detect_timezone_by_coords none (some (12899/100))) = ("WITA", 8) ∧
    tz_of (detect_timezone_by_coords none (some 129)) = ("WIT", 9) := by
  refine ⟨fun h1 => ?_, fun h1 h2 => ?_, fun h1 => ?_, rfl, by decide, by decide,
    by decide, by decide⟩
  · have h : detect_timezone_by_coords plat (some L) = ⟨plat, some L, "WIB", 7⟩ := by
      show (if L < 1148/10 then (⟨plat, some L, "WIB", 7⟩ : SiteMeta)
        else if 1148/10 ≤ L ∧ L < 129 then ⟨plat, some L, "WITA", 8⟩
        else ⟨plat, some L, "WIT", 9⟩) = ⟨plat, some L, "WIB", 7⟩
      rw [if_pos h1]
    rw [h]
    rfl
  · have hn1 : ¬ L < 1148/10 := by linarith
    have h : detect_timezone_by_coords plat (some L) = ⟨plat, some L, "WITA", 8⟩ := by
      show (if L < 1148/10 then (⟨plat, some L, "WIB", 7⟩ : SiteMeta)
        else if 1148/10 ≤ L ∧ L < 129 then ⟨plat, some L, "WITA", 8⟩
        else ⟨plat, some L, "WIT", 9⟩) = ⟨plat, some L, "WITA", 8⟩
      rw [if_neg hn1, if_pos ⟨h1, h2⟩]
    rw [h]
    rfl
  · have hn1 : ¬ L < 1148/10 := by linarith
    have hn2 : ¬ (1148/10 ≤ L ∧ L < 129) := by rintro ⟨-, hx⟩; linarith
    have h : detect_timezone_by_coords plat (some L) = ⟨plat, some L, "WIT", 9⟩ := by
      show (if L < 1148/10 then (⟨plat, some L, "WIB", 7⟩ : SiteMeta)
        else if 1148/10 ≤ L ∧ L < 129 then ⟨plat, some L, "WITA", 8⟩
        else ⟨plat, some L, "WIT", 9⟩) = ⟨plat, some L, "WIT", 9⟩
      rw [if_neg hn1, if_neg hn2]
    rw [h]
    rfl

/-- Witness for claim C3: the band theorem applied to the concrete
longitudes 114.79, 114.8, 128.99 and 129.0. -/
theorem timezone_resolver_bands_witness :
    tz_of (detect_timezone_by_coords none (some (11479/100))) = ("WIB", 7) ∧
    tz_of (detect_timezone_by_coords none (some (1148/10))) = ("WITA", 8) ∧
    tz_of (detect_timezone_by_coords none (some (12899/100))) = ("WITA", 8) ∧
    tz_of (detect_timezone_by_coords none (some 129)) = ("WIT", 9) :=
  ⟨(timezone_resolver_bands none (11479/100)).1 (by norm_num),
   (timezone_resolver_bands none (1148/10)).2.1 (by norm_num) (by norm_num),
   (timezone_resolver_bands none (12899/100)).2.1 (by norm_num) (by norm_num),
   (timezone_resolver_bands none 129).2.2.1 (by norm_num)⟩

/-- Folding solver rows never touches M2 when no row is named M2. -/
theorem foldl_updateAmp_M2 (coef : List (String × ℚ)) :
    ∀ a : Amps, "M2" ∉ coef.map Prod.fst → (coef.foldl updateAmp a).M2 = a.M2 := by
  induction coef with
  | nil => intro a _; rfl
  | cons p rest ih =>
    intro a h
    simp only [List.map_cons, List.mem_cons] at h
    push_neg at h
    rw [List.foldl_cons, ih _ h.2]
    simp only [updateAmp]
    split_ifs with h1 h2 h3 h4 <;> simp_all

/-- Folding solver rows never touches S2 when no row is named S2. -/
theorem foldl_updateAmp_S2 (coef : List (String × ℚ)) :
    ∀ a : Amps, "S2" ∉ coef.map Prod.fst → (coef.foldl updateAmp a).S2 = a.S2 := by
  induction coef with
  | nil => intro a _; rfl
  | cons p rest ih =>
    intro a h
    simp only [List.map_cons, List.mem_cons] at h
    push_neg at h
    rw [List.foldl_cons, ih _ h.2]
    simp only [updateAmp]
    split_ifs with h1 h2 h3 h4 <;> simp_all

/-- Folding solver rows never touches K1 when no row is named K1. -/
theorem foldl_updateAmp_K1 (coef : List (String × ℚ)) :
    ∀ a : Amps, "K1" ∉ coef.map Prod.fst → (coef.foldl updateAmp a).K1 = a.K1 := by
  induction coef with
  | nil => intro a _; rfl
  | cons p rest ih =>
    intro a h
    simp only [List.map_cons, List.mem_cons] at h
    push_neg at h
    rw [List.foldl_cons, ih _ h.2]
    simp only [updateAmp]
    split_ifs with h1 h2 h3 h4 <;> simp_all

/-- Folding solver rows never touches O1 when no row is named O1. -/
theorem foldl_updateAmp_O1 (coef : List (String × ℚ)) :
    ∀ a : Amps, "O1" ∉ coef.map Prod.fst → (coef.foldl updateAmp a).O1 = a.O1 := by
  induction coef with
  | nil => intro a _; rfl
  | cons p rest ih =>
    intro a h
    simp only [List.map_cons, List.mem_cons] at h
    push_neg at h
    rw [List.foldl_cons, ih _ h.2]
    simp only [updateAmp]
    split_ifs with h1 h2 h3 h4 <;> simp_all

/-- Claim C5: the Formzahl is the sentinel 999 exactly when the semidiurnal
sum `M2 + S2` is 0, and `(K1 + O1) / (M2 + S2)` otherwise, a constituent
absent from the solver output contributing amplitude 0. -/
theorem formzahl_sentinel (coef : List (String × ℚ)) :
    ((found_amps coef).M2 + (found_amps coef).S2 = 0 → formzahl_of coef = 999) ∧
    ((found_amps coef).M2 + (found_amps coef).S2 ≠ 0 →
      formzahl_of coef =
        ((found_amps coef).K1 + (found_amps coef).O1) /
          ((found_amps coef).M2 + (found_amps coef).S2)) ∧
    ("M2" ∉ coef.map Prod.fst → (found_amps coef).M2 = 0) ∧
    ("S2" ∉ coef.map Prod.fst → (found_amps coef).S2 = 0) ∧
    ("K1" ∉ coef.map Prod.fst → (found_amps coef).K1 = 0) ∧
    ("O1" ∉ coef.map Prod.fst → (found_amps coef).O1 = 0) := by
  refine ⟨fun h => ?_, fun h => ?_, fun h => ?_, fun h => ?_, fun h => ?_, fun h => ?_⟩
  · simp [formzahl_of, h]
  · simp [formzahl_of, h]
  · exact foldl_updateAmp_M2 coef _ h
  · exact foldl_updateAmp_S2 coef _ h
  · exact foldl_updateAmp_K1 coef _ h
  · exact foldl_updateAmp_O1 coef _ h

/-- Witness for claim C5: a solver output with no semidiurnal constituents
gets the sentinel, one with M2 present gets the quotient, and S2 absent from
it contributes 0. -/
theorem formzahl_sentinel_witness :
    formzahl_of [("K1", 1)] = 999 ∧
    formzahl_of [("M2", 2), ("K1", 3)] = 3/2 ∧
    (found_amps [("M2", 2), ("K1", 3)]).S2 = 0 := by
  refine ⟨(formzahl_sentinel [("K1", 1)]).1 (by decide), ?_,
    (formzahl_sentinel [("M2", 2), ("K1", 3)]).2.2.2.1 (by decide)⟩
  have h := (formzahl_sentinel [("M2", 2), ("K1", 3)]).2.1 (by decide)
  rw [h]
  decide

/-- Claim C9 counterexample: with a latitude of -5 in the header and no
longitude, `_detect_timezone_by_coords` overwrites the parsed latitude with
the -8.0 fallback, so the classifier uses -8 instead of the parsed -5; a
parsed latitude of 0 is likewise discarded by the Python truthiness test even
with the longitude present. -/
theorem latitude_fallback_counterexample :
    (detect_timezone_by_coords (some (-5)) none).lat = some (-8) ∧
    classifier_lat (detect_timezone_by_coords (some (-5)) none).lat = -8 ∧
    ((-8 : ℚ) ≠ -5) ∧
    (detect_timezone_by_coords (some 0) (some 100)).lat = some 0 ∧
    classifier_lat (detect_timezone_by_coords (some 0) (some 100)).lat = -8 :=
  ⟨rfl, rfl, by decide, by decide, by decide⟩

/-- Claim C9 as amended: the -8.0 fallback is substituted when the longitude
is absent (the resolver then overwrites any parsed latitude) or when the
stored latitude is absent or 0 at classification time; only when the
longitude was found and the parsed latitude is nonzero does the classifier
use the parsed latitude. -/
theorem latitude_fallback (plat : Option ℚ) (L a : ℚ) :
    (plat = some a → a ≠ 0 →
      classifier_lat (detect_timezone_by_coords plat (some L)).lat = a) ∧
    (detect_timezone_by_coords plat (some L)).lat = plat ∧
    classifier_lat (detect_timezone_by_coords plat none).lat = -8 ∧
    classifier_lat none = -8 ∧
    classifier_lat (some 0) = -8 := by
  have hlat : (detect_timezone_by_coords plat (some L)).lat = plat := by
    simp only [detect_timezone_by_coords]
    split_ifs <;> rfl
  refine ⟨fun hp ha => ?_, hlat, rfl, rfl, by decide⟩
  rw [hlat, hp]
  simp [classifier_lat, ha]

/-- Witness for the amended claim C9: a parsed latitude of 5 with the
longitude present is used unchanged by the classifier. -/
theorem latitude_fallback_witness :
    classifier_lat (detect_timezone_by_coords (some 5) (some 100)).lat = 5 :=
  (latitude_fallback (some 5) 100 5).1 rfl (by norm_num)

/-- Claim C4 (code bug at the empty series): on the empty parsed series the
resampled daily series is empty and `idxmax` raises `ValueError`, so the
recommender raises instead of returning; on a nonempty series of one or two
calendar days every rolling sum is undefined and the recommender returns
without reporting a window; a solver failure leaves the classifier at the
initial "Unknown" label. -/
theorem short_series_outcomes :
    recommend_fieldwork_window [] =
      Except.error "attempt to get argmax of an empty sequence" ∧
    recommend_fieldwork_window [⟨0, 0, 1⟩] = Except.ok none ∧
    recommend_fieldwork_window [⟨0, 0, 1⟩, ⟨24, 31, 2⟩] = Except.ok none ∧
    analyze_tide_type (Except.error "insufficient data") initAnalyze = initAnalyze ∧
    initAnalyze.tide_type = "Unknown" :=
  ⟨rfl, rfl, rfl, rfl, rfl⟩

/-- Claim C6: when the solver raises, `analyze_tide_type` catches the
exception and returns with the instance state untouched, the classification
label remains the initial "Unknown" rather than stale data, and the
downstream reporter still renders output labelled "Unknown". -/
theorem solver_failure_keeps_unknown
    (solve : ℚ → List TideObs → Except String (List (String × ℚ)))
    (e : String) (obs : List TideObs) (p : TidePipeline)
    (hdf : p.df = some obs) (hinit : p.analysis = initAnalyze)
    (hsolve : solve (classifier_lat p.meta.lat) obs = Except.error e) :
    analyze_step solve p = p ∧
    (analyze_step solve p).analysis.tide_type = "Unknown" ∧
    ∃ out, export_html_pro (analyze_step solve p) = some out ∧
      out.tide_type = "Unknown" := by
  have hstep : analyze_step solve p = p := by
    simp only [analyze_step, hdf]
    rw [hsolve]
    simp only [analyze_tide_type]
    rw [← hdf]
  refine ⟨hstep, ?_, ?_⟩
  · rw [hstep, hinit]
    rfl
  · rw [hstep]
    have hexp : export_html_pro p = some
        ⟨obs.map TideObs.tLocal, obs.map TideObs.elev,
         (obs.map TideObs.elev).sum / (obs.length : ℚ), p.meta.tz_name,
         p.analysis.tide_type⟩ := by
      simp only [export_html_pro, hdf]
    refine ⟨_, hexp, ?_⟩
    rw [hinit]
    rfl

/-- Witness for claim C6: the failing-solver theorem applied to a concrete
solver, dataframe and freshly initialised pipeline. -/
theorem solver_failure_keeps_unknown_witness :
    analyze_step solverFailWitness pipelineWitness = pipelineWitness ∧
    (analyze_step solverFailWitness pipelineWitness).analysis.tide_type = "Unknown" ∧
    ∃ out, export_html_pro (analyze_step solverFailWitness pipelineWitness) = some out ∧
      out.tide_type = "Unknown" :=
  solver_failure_keeps_unknown solverFailWitness "matrix is singular" obsWitness
    pipelineWitness rfl rfl rfl

/-- Claim C7: a parsing failure leaves the dataset `None`, and with a `None`
dataset the classifier, the window recommender and both exporters are no-ops
guarded by the null-data check instead of raising. -/
theorem parse_failure_noop (err : String)
    (solve : ℚ → List TideObs → Except String (List (String × ℚ)))
    (p : TidePipeline) (hdf : p.df = none) :
    (process_data (Except.error err) initPipeline).df = none ∧
    analyze_step solve p = p ∧
    recommend_step p = Except.ok none ∧
    export_excel_pro p = none ∧
    export_html_pro p = none := by
  refine ⟨rfl, ?_, ?_, ?_, ?_⟩ <;>
    simp only [analyze_step, recommend_step, export_excel_pro, export_html_pro, hdf]

/-- Witness for claim C7: the no-op theorem applied to the freshly
constructed pipeline, whose dataset is `None`. -/
theorem parse_failure_noop_witness :
    (process_data (Except.error "could not convert string") initPipeline).df = none ∧
    analyze_step solverFailWitness initPipeline = initPipeline ∧
    recommend_step initPipeline = Except.ok none ∧
    export_excel_pro initPipeline = none ∧
    export_html_pro initPipeline = none :=
  parse_failure_noop "could not convert string" solverFailWitness initPipeline rfl

/-- Parsing rows that all carry an elevation drops nothing: the result is the
row list mapped to observations. -/
theorem process_rows_all_some : ∀ (rows : List RawRow) (offset : ℤ),
    (∀ r ∈ rows, r.elev.isSome = true) →
    process_rows rows offset =
      rows.map (fun r => ⟨r.utc, r.utc + offset, r.elev.getD 0⟩) := by
  intro rows offset
  induction rows with
  | nil => intro _; rfl
  | cons r rest ih =>
    intro h
    have hr : r.elev.isSome = true := h r (List.mem_cons_self r rest)
    obtain ⟨e, he⟩ := Option.isSome_iff_exists.mp hr
    have hrest : ∀ x ∈ rest, x.elev.isSome = true :=
      fun x hx => h x (List.mem_cons_of_mem r hx)
    simp only [process_rows, List.filterMap_cons, he, Option.map_some, List.map_cons]
    rw [← process_rows]
    rw [ih hrest]
    simp [he]

/-- Claim C8: parsing N well-formed rows yields exactly N observations in
input order, each observation's local timestamp being its UTC timestamp plus
the resolved offset in hours. -/
theorem roundtrip_rows (rows : List RawRow) (offset : ℤ)
    (h : ∀ r ∈ rows, r.elev.isSome = true) :
    process_rows rows offset =
      rows.map (fun r => ⟨r.utc, r.utc + offset, r.elev.getD 0⟩) ∧
    (process_rows rows offset).length = rows.length ∧
    ∀ o ∈ process_rows rows offset, o.tLocal = o.utc + offset := by
  have hmap := process_rows_all_some rows offset h
  refine ⟨hmap, by rw [hmap, List.length_map], ?_⟩
  intro o ho
  simp only [process_rows, List.mem_filterMap] at ho
  obtain ⟨r, hr, he⟩ := ho
  cases hel : r.elev with
  | none => rw [hel] at he; simp at he
  | some e =>
    rw [hel] at he
    simp at he
    subst he
    rfl

/-- The first-maximum scan only returns a pair occurring in the series. -/
theorem argmaxFirst_mem : ∀ (l : List (ℤ × Option ℚ)) (d : ℤ) (v : ℚ),
    argmaxFirst l = some (d, v) → (d, some v) ∈ l := by
  intro l
  induction l with
  | nil => intro d v h; exact absurd h (by simp [argmaxFirst])
  | cons q rest ih =>
    intro d v h
    obtain ⟨qd, qv⟩ := q
    cases qv with
    | none =>
      simp only [argmaxFirst] at h
      exact List.mem_cons_of_mem _ (ih d v h)
    | some qv0 =>
      cases hrec : argmaxFirst rest with
      | none =>
        simp only [argmaxFirst, hrec, Option.some.injEq, Prod.mk.injEq] at h
        obtain ⟨rfl, rfl⟩ := h
        exact List.mem_cons_self _ _
      | some dv2 =>
        obtain ⟨e2, u2⟩ := dv2
        simp only [argmaxFirst, hrec] at h
        by_cases hgt : u2 > qv0
        · rw [if_pos hgt] at h
          simp only [Option.some.injEq, Prod.mk.injEq] at h
          obtain ⟨rfl, rfl⟩ := h
          exact List.mem_cons_of_mem _ (ih _ _ hrec)
        · rw [if_neg hgt] at h
          simp only [Option.some.injEq, Prod.mk.injEq] at h
          obtain ⟨rfl, rfl⟩ := h
          exact List.mem_cons_self _ _

/-- A series whose scan finds no maximum has no defined value. -/
theorem argmaxFirst_none : ∀ l : List (ℤ × Option ℚ),
    argmaxFirst l = none → ∀ q ∈ l, q.2 = none := by
  intro l
  induction l with
  | nil => intro _ q hq; exact absurd hq (List.not_mem_nil q)
  | cons q0 rest ih =>
    intro h q hq
    obtain ⟨qd, qv⟩ := q0
    cases qv with
    | none =>
      simp only [argmaxFirst] at h
      rcases List.mem_cons.mp hq with rfl | hq2
      · rfl
      · exact ih h q hq2
    | some qv0 =>
      exfalso
      cases hrec : argmaxFirst rest with
      | none =>
        simp only [argmaxFirst, hrec] at h
        exact Option.noConfusion h
      | some dv2 =>
        obtain ⟨e2, u2⟩ := dv2
        simp only [argmaxFirst, hrec] at h
        by_cases hgt : u2 > qv0
        · rw [if_pos hgt] at h; exact Option.noConfusion h
        · rw [if_neg hgt] at h; exact Option.noConfusion h

/-- Every defined value of the series is bounded by the first maximum. -/
theorem argmaxFirst_ub : ∀ (l : List (ℤ × Option ℚ)) (d : ℤ) (v : ℚ),
    argmaxFirst l = some (d, v) → ∀ (d2 : ℤ) (w : ℚ), (d2, some w) ∈ l → w ≤ v := by
  intro l
  induction l with
  | nil => intro d v _ d2 w hw; exact absurd hw (List.not_mem_nil _)
  | cons q rest ih =>
    intro d v h d2 w hw
    obtain ⟨qd, qv⟩ := q
    cases qv with
    | none =>
      simp only [argmaxFirst] at h
      rcases List.mem_cons.mp hw with heq | hmem
      · simp at heq
      · exact ih d v h d2 w hmem
    | some qv0 =>
      cases hrec : argmaxFirst rest with
      | none =>
        simp only [argmaxFirst, hrec, Option.some.injEq, Prod.mk.injEq] at h
        obtain ⟨rfl, rfl⟩ := h
        rcases List.mem_cons.mp hw with heq | hmem
        · simp only [Prod.mk.injEq, Option.some.injEq] at heq
          obtain ⟨rfl, rfl⟩ := heq
          exact le_refl _
        · have hnone := argmaxFirst_none rest hrec (d2, some w) hmem
          exact absurd hnone (by simp)
      | some dv2 =>
        obtain ⟨e2, u2⟩ := dv2
        simp only [argmaxFirst, hrec] at h
        by_cases hgt : u2 > qv0
        · rw [if_pos hgt] at h
          simp only [Option.some.injEq, Prod.mk.injEq] at h
          obtain ⟨rfl, rfl⟩ := h
          rcases List.mem_cons.mp hw with heq | hmem
          · simp only [Prod.mk.injEq, Option.some.injEq] at heq
            obtain ⟨rfl, rfl⟩ := heq
            exact le_of_lt hgt
          · exact ih _ _ hrec d2 w hmem
        · rw [if_neg hgt] at h
          simp only [Option.some.injEq, Prod.mk.injEq] at h
          obtain ⟨rfl, rfl⟩ := h
          rcases List.mem_cons.mp hw with heq | hmem
          · simp only [Prod.mk.injEq, Option.some.injEq] at heq
            obtain ⟨rfl, rfl⟩ := heq
            exact le_refl _
          · have hle := ih _ _ hrec d2 w hmem
            push_neg at hgt
            exact le_trans hle hgt

/-- Decomposition around the first maximum: the series splits as a prefix,
the winning pair, and a suffix, and every defined value in the prefix is
strictly smaller than the maximum (so the scan is a stable argmax). -/
theorem argmaxFirst_stable : ∀ (l : List (ℤ × Option ℚ)) (d : ℤ) (v : ℚ),
    argmaxFirst l = some (d, v) →
    ∃ l1 l2, l = l1 ++ (d, some v) :: l2 ∧
      ∀ q ∈ l1, ∀ w : ℚ, q.2 = some w → w < v := by
  intro l
  induction l with
  | nil => intro d v h; exact absurd h (by simp [argmaxFirst])
  | cons q rest ih =>
    intro d v h
    obtain ⟨qd, qv⟩ := q
    cases qv with
    | none =>
      simp only [argmaxFirst] at h
      obtain ⟨l1, l2, hsplit, hlt⟩ := ih d v h
      refine ⟨(qd, none) :: l1, l2, by rw [hsplit]; rfl, ?_⟩
      intro q hq w hw
      rcases List.mem_cons.mp hq with rfl | hq2
      · exact absurd hw (by simp)
      · exact hlt q hq2 w hw
    | some qv0 =>
      cases hrec : argmaxFirst rest with
      | none =>
        simp only [argmaxFirst, hrec, Option.some.injEq, Prod.mk.injEq] at h
        obtain ⟨rfl, rfl⟩ := h
        exact ⟨[], rest, rfl, fun q hq w _ => absurd hq (List.not_mem_nil q)⟩
      | some dv2 =>
        obtain ⟨e2, u2⟩ := dv2
        simp only [argmaxFirst, hrec] at h
        by_cases hgt : u2 > qv0
        · rw [if_pos hgt] at h
          simp only [Option.some.injEq, Prod.mk.injEq] at h
          obtain ⟨rfl, rfl⟩ := h
          obtain ⟨l1, l2, hsplit, hlt⟩ := ih _ _ hrec
          refine ⟨(qd, some qv0) :: l1, l2, by rw [hsplit]; rfl, ?_⟩
          intro q hq w hw
          rcases List.mem_cons.mp hq with rfl | hq2
          · simp only [Option.some.injEq] at hw
            rw [← hw]
            exact hgt
          · exact hlt q hq2 w hw
        · rw [if_neg hgt] at h
          simp only [Option.some.injEq, Prod.mk.injEq] at h
          obtain ⟨rfl, rfl⟩ := h
          exact ⟨[], rest, rfl, fun q hq w _ => absurd hq (List.not_mem_nil q)⟩

/-- The resampled daily index is strictly increasing. -/
theorem daysIndex_sorted (obs : List TideObs) :
    (daysIndex obs).Pairwise (· < ·) := by
  unfold daysIndex
  cases hm : listMinZ (obs.map obsDay) with
  | none => exact List.Pairwise.nil
  | some d0 =>
    cases hM : listMaxZ (obs.map obsDay) with
    | none => exact List.Pairwise.nil
    | some d1 =>
      have h2 : ((List.range ((d1 - d0).toNat + 1)).map
          (fun i : ℕ => d0 + (i : ℤ))).Pairwise (· < ·) := by
        rw [List.pairwise_map]
        refine (List.pairwise_lt_range _).imp ?_
        intro a b hab
        omega
      exact h2

/-- The rolling-sum series is strictly increasing in its day component. -/
theorem rollSeries_sorted (obs : List TideObs) :
    (rollSeries obs).Pairwise (fun q r => q.1 < r.1) :=
  (daysIndex_sorted obs).map _ (fun _ _ hab => hab)

/-- Claim C2: whenever the recommender reports a window, it is the inclusive
span from the selected day minus 2 days to that day, the selected day lies in
the daily index with a defined trailing 3-day rolling sum of daily elevation
range, that sum is maximal among all defined rolling sums, chronologically
earlier days with a defined sum are strictly smaller (first maximal day
wins), and the sum decomposes as the three trailing per-day `max - min`
ranges. -/
theorem recommend_window_spec (obs : List TideObs) (s e : ℤ)
    (h : recommend_fieldwork_window obs = Except.ok (some (s, e))) :
    WindowSpec obs s e := by
  unfold recommend_fieldwork_window at h
  cases hidx : series_idxmax (rollSeries obs) with
  | error msg => rw [hidx] at h; exact absurd h (by simp)
  | ok o =>
    rw [hidx] at h
    cases o with
    | none => exact absurd h (by simp)
    | some bestEnd =>
      simp only [Except.ok.injEq, Option.some.injEq, Prod.mk.injEq] at h
      obtain ⟨hs, hE⟩ := h
      subst hE
      subst hs
      unfold series_idxmax at hidx
      by_cases hnil : rollSeries obs = []
      · rw [if_pos hnil] at hidx
        exact absurd hidx (by simp)
      · rw [if_neg hnil] at hidx
        simp only [Except.ok.injEq] at hidx
        rw [Option.map_eq_some'] at hidx
        obtain ⟨⟨d0, v⟩, hmax, hfst⟩ := hidx
        have hd0 : bestEnd = d0 := hfst.symm
        subst hd0
        have hmem := argmaxFirst_mem _ _ _ hmax
        rw [rollSeries, List.mem_map] at hmem
        obtain ⟨d1, hd1, heq⟩ := hmem
        simp only [Prod.mk.injEq] at heq
        obtain ⟨hd1e, hroll⟩ := heq
        rw [hd1e] at hd1 hroll
        unfold WindowSpec
        refine ⟨rfl, hd1, v, hroll, ?_, ?_, ?_⟩
        · intro d hd w hw
          refine argmaxFirst_ub _ _ _ hmax d w ?_
          rw [rollSeries, List.mem_map]
          exact ⟨d, hd, by rw [hw]⟩
        · intro d hd hlt w hw
          obtain ⟨l1, l2, hsplit, hsmall⟩ := argmaxFirst_stable _ _ _ hmax
          have hmemd : (d, some w) ∈ rollSeries obs := by
            rw [rollSeries, List.mem_map]
            exact ⟨d, hd, by rw [hw]⟩
          rw [hsplit] at hmemd
          rcases List.mem_append.mp hmemd with hin1 | hin2
          · exact hsmall _ hin1 w rfl
          · rcases List.mem_cons.mp hin2 with heq2 | hin3
            · exfalso
              simp only [Prod.mk.injEq] at heq2
              omega
            · exfalso
              have hpw := rollSeries_sorted obs
              rw [hsplit] at hpw
              obtain ⟨-, hpw2, -⟩ := List.pairwise_append.mp hpw
              have hgt : (bestEnd, some v).1 < (d, some w).1 :=
                (List.pairwise_cons.mp hpw2).1 (d, some w) hin3
              simp only at hgt
              omega
        · intro a b c ha hb hc
          simp only [roll3, ha, hb, hc, Option.some.injEq] at hroll
          linarith [hroll]

/-- Witness for claim C2: the window theorem applied to a concrete 3-day
series, for which the recommender reports the window from day 0 to day 2. -/
theorem recommend_window_spec_witness : WindowSpec obsWitness 0 2 :=
  recommend_window_spec obsWitness 0 2 rfl

/-- Witness for claim C8: the round-trip theorem applied to two concrete
well-formed rows with offset 7. -/
theorem roundtrip_rows_witness :
    process_rows rowsWitness 7 =
      rowsWitness.map (fun r => ⟨r.utc, r.utc + 7, r.elev.getD 0⟩) ∧
    (process_rows rowsWitness 7).length = rowsWitness.length ∧
    ∀ o ∈ process_rows rowsWitness 7, o.tLocal = o.utc + 7 :=
  roundtrip_rows rowsWitness 7 (by decide)

/-- Whatever the longitude pattern captures is a nonempty run of characters
from the class of digits and dots. -/
theorem lonSearch_numchars : ∀ cs ds : List Char,
    lonSearch cs = some ds → ds ≠ [] ∧ ∀ c ∈ ds, isNumChar c = true := by
  intro cs
  induction cs with
  | nil => intro ds h; exact absurd h (by simp [lonSearch])
  | cons c rest ih =>
    intro ds h
    cases hdl : dropLiteral [ 'L', 'o', 'n', ':'] (c :: rest) with
    | none =>
      simp only [lonSearch, hdl] at h
      exact ih ds h
    | some r2 =>
      simp only [lonSearch, hdl] at h
      by_cases hds : (r2.dropWhile isSpaceChar).takeWhile isNumChar = []
      · rw [if_pos hds] at h
        exact ih ds h
      · rw [if_neg hds] at h
        simp only [Option.some.injEq] at h
        subst h
        exact ⟨hds, fun c2 hc2 => List.mem_takeWhile_imp hc2⟩

/-- A line without the letter L cannot match the longitude pattern. -/
theorem lonSearch_eq_none : ∀ cs : List Char,
    (∀ c ∈ cs, c ≠ 'L') → lonSearch cs = none := by
  intro cs
  induction cs with
  | nil => intro _; rfl
  | cons c rest ih =>
    intro h
    have hc : c ≠ 'L' := h c (List.mem_cons_self c rest)
    have hrest : ∀ c2 ∈ rest, c2 ≠ 'L' :=
      fun c2 hc2 => h c2 (List.mem_cons_of_mem c hc2)
    have hdl : dropLiteral [ 'L', 'o', 'n', ':'] (c :: rest) = none := by
      simp only [dropLiteral]
      rw [if_neg hc]
    simp only [lonSearch, hdl]
    exact ih hrest

/-- Searching a line of the exact shape `Lon:-<numeral>` fails at every
position of the `Lon:-` prefix: the capture class rejects the minus sign, so
the scan reduces to searching the numeral tail. -/
theorem lonSearch_minus_skip (num : List Char) :
    lonSearch (['L', 'o', 'n', ':', '-'] ++ num) = lonSearch num := rfl

/-- Claim C10: the longitude pattern captures only non-negative numerals
(nonempty digit/dot runs), so a header line carrying `Lon:` with a negative
value produces no longitude match, the longitude is treated as absent, and
the resolver falls back to WIB (UTC+7). -/
theorem negative_lon_fallback :
    (∀ cs ds : List Char, lonSearch cs = some ds →
      ds ≠ [] ∧ ∀ c ∈ ds, isNumChar c = true) ∧
    ∀ (num : List Char) (plat : Option ℚ) (conv : List Char → ℚ),
      (∀ c ∈ num, isNumChar c = true) →
      lonSearch (['L', 'o', 'n', ':', '-'] ++ num) = none ∧
      tz_of (detect_timezone_by_coords plat
        ((detectLonFromLines [['L', 'o', 'n', ':', '-'] ++ num]).map conv)) =
          ("WIB", 7) := by
  refine ⟨lonSearch_numchars, ?_⟩
  intro num plat conv hnum
  have hnoL : ∀ c ∈ num, c ≠ 'L' := by
    intro c hc heq
    have hn := hnum c hc
    rw [heq] at hn
    exact absurd hn (by decide)
  have hnone : lonSearch (['L', 'o', 'n', ':', '-'] ++ num) = none := by
    rw [lonSearch_minus_skip]
    exact lonSearch_eq_none num hnoL
  refine ⟨hnone, ?_⟩
  have htake : List.take 20 [['L', 'o', 'n', ':', '-'] ++ num] =
      [['L', 'o', 'n', ':', '-'] ++ num] :=
    List.take_of_length_le (by simp)
  have hdet : detectLonFromLines [['L', 'o', 'n', ':', '-'] ++ num] = none := by
    unfold detectLonFromLines
    rw [htake, List.foldl_cons, List.foldl_nil]
    simp only [hnone]
  rw [hdet]
  rfl

/-- Witness for claim C10: the regex theorem applied to the numeral `70.5`
(the header line `Lon:-70.5`), and its capture part applied to the matching
line `Lon: 70.5`. -/
theorem negative_lon_fallback_witness :
    ((['7', '0', '.', '5'] : List Char) ≠ [] ∧
      ∀ c ∈ (['7', '0', '.', '5'] : List Char), isNumChar c = true) ∧
    lonSearch (['L', 'o', 'n', ':', '-'] ++ ['7', '0', '.', '5']) = none ∧
    tz_of (detect_timezone_by_coords none
      ((detectLonFromLines [['L', 'o', 'n', ':', '-'] ++ ['7', '0', '.', '5']]).map
        (fun _ => 0))) = ("WIB", 7) :=
  ⟨negative_lon_fallback.1 ['L', 'o', 'n', ':', ' ', '7', '0', '.', '5']
      ['7', '0', '.', '5'] rfl,
   (negative_lon_fallback.2 ['7', '0', '.', '5'] none (fun _ => 0) (by decide)).1,
   (negative_lon_fallback.2 ['7', '0', '.', '5'] none (fun _ => 0) (by decide)).2⟩

end SRGI
